import Mathlib

/-!
Shallow embedding of the meal & nutrient coverage aggregation engine of the
pregnancy-support backend (`app/meals/service.py` together with the pydantic
models of `app/meals/models.py`).  Pure helper methods of `MealService` become
Lean functions; the relational store becomes an explicit `DB` state record and
the SQL statements issued by the service become functions on that state.
-/

/-- Python truthiness of an `Optional[bool]` value: only `some true` is truthy
(`None` and `False` are both falsy). -/
def pyTruthyOptBool : Option Bool → Bool
  | some true => true
  | _ => false

/-- Python truthiness of an `Optional[str]` value: `None` and the empty string
are falsy (`bool(row.get('warning_message'))`). -/
def pyTruthyOptStr : Option String → Bool
  | some s => s ≠ ""
  | none => false

/-- `MicronutrientPresence` (models.py): four boolean core-nutrient flags and
three tri-state nutrients represented as nullable booleans. -/
structure MicronutrientPresence where
  calcium : Bool
  iron : Bool
  folicAcid : Bool
  protein : Bool
  vitaminD : Option Bool
  omega3 : Option Bool
  fiber : Option Bool
deriving DecidableEq

/-- The pydantic field defaults of `MicronutrientPresence()`. -/
def MicronutrientPresence.defaults : MicronutrientPresence :=
  { calcium := false, iron := false, folicAcid := false, protein := false,
    vitaminD := none, omega3 := none, fiber := none }

/-- A row of the `foods` table, as returned by `SELECT * FROM foods` (the
dictionary keys read by `_map_food_item`). -/
structure FoodRow where
  id : String
  name : String
  portion : Option String
  macro_category : Option String
  rainbow_color : Option String
  phytonutrient_focus : Option String
  is_safe_pregnancy : Bool
  warning_message : Option String
  warning_type : Option String
  tags : Option (List String)
  description : Option String
deriving DecidableEq

/-- `FoodItem` (models.py). -/
structure FoodItem where
  id : String
  name : String
  portion : Option String
  macroCategory : Option String
  rainbowColor : Option String
  phytonutrientFocus : Option String
  containsMicronutrients : MicronutrientPresence
  hasWarnings : Bool
  warningMessage : Option String
  warningType : Option String
  tags : Option (List String)
  description : Option String
deriving DecidableEq

/-- `MealService._map_food_item(row, nutrients)`: maps a database row plus the
food's nutrient-name list to a `FoodItem`.  The Python default `nutrients=None`
is normalised to `[]` before use, so callers that omit the argument pass `[]`
here.  The tri-state flags test membership only when the list is non-empty
(`'vitamin_d' in nutrients if nutrients else None`). -/
def map_food_item (row : FoodRow) (nutrients : List String) : FoodItem :=
  { id := row.id
    name := row.name
    portion := row.portion
    macroCategory := row.macro_category
    rainbowColor := row.rainbow_color
    phytonutrientFocus := row.phytonutrient_focus
    containsMicronutrients :=
      { calcium := nutrients.contains "calcium"
        iron := nutrients.contains "iron"
        folicAcid := nutrients.contains "folate"
        protein := nutrients.contains "protein"
        vitaminD := if nutrients.isEmpty then none else some (nutrients.contains "vitamin_d")
        omega3 := if nutrients.isEmpty then none else some (nutrients.contains "dha")
        fiber := if nutrients.isEmpty then none else some (nutrients.contains "fiber") }
    hasWarnings := !row.is_safe_pregnancy || pyTruthyOptStr row.warning_message
    warningMessage := row.warning_message
    warningType := row.warning_type
    tags := row.tags
    description := row.description }

/-- `Meal` (models.py). -/
structure Meal where
  id : Nat
  type : String
  items : List FoodItem
  containsMicronutrients : MicronutrientPresence
  notes : Option String
deriving DecidableEq

/-- `DayMeals` (models.py): the five optional meal slots of a day. -/
structure DayMeals where
  breakfast : Option Meal
  snack1 : Option Meal
  lunch : Option Meal
  snack2 : Option Meal
  dinner : Option Meal
deriving DecidableEq

/-- The empty `DayMeals()` (all pydantic defaults are `None`). -/
def DayMeals.empty : DayMeals :=
  { breakfast := none, snack1 := none, lunch := none, snack2 := none, dinner := none }

/-- `getattr(day_data.meals, meal_type_key)` for the five slot keys used by the
service (any other key never occurs, since `_map_meal_type_to_key` is total
onto the five keys). -/
def DayMeals.getSlot (m : DayMeals) : String → Option Meal
  | "breakfast" => m.breakfast
  | "snack1" => m.snack1
  | "lunch" => m.lunch
  | "snack2" => m.snack2
  | "dinner" => m.dinner
  | _ => none

/-- `setattr(day_data.meals, meal_type_key, v)` for the five slot keys. -/
def DayMeals.setSlot (m : DayMeals) (key : String) (v : Option Meal) : DayMeals :=
  if key = "breakfast" then { m with breakfast := v }
  else if key = "snack1" then { m with snack1 := v }
  else if key = "lunch" then { m with lunch := v }
  else if key = "snack2" then { m with snack2 := v }
  else if key = "dinner" then { m with dinner := v }
  else m

/-- `NutrientStatus` (models.py). -/
structure NutrientStatus where
  covered : Bool
  mealsCovered : List String
  status : String
deriving DecidableEq

/-- `DailySummary` (models.py). -/
structure DailySummary where
  calcium : NutrientStatus
  iron : NutrientStatus
  folicAcid : NutrientStatus
  protein : NutrientStatus
  hasWarnings : Bool
  missingNutrients : List String
deriving DecidableEq

/-- `DayData` (models.py). -/
structure DayData where
  id : String
  date : String
  dayOfWeek : String
  meals : DayMeals
  dailySummary : DailySummary
deriving DecidableEq

/-- `MealService._aggregate_micronutrients(items)`: boolean flags are `any`
over the items; each tri-state flag filters the items by Python truthiness of
the nullable flag (dropping both `None` and `False`) and takes `any` of the
surviving values. -/
def aggregate_micronutrients (items : List FoodItem) : MicronutrientPresence :=
  { calcium := items.any (fun item => item.containsMicronutrients.calcium)
    iron := items.any (fun item => item.containsMicronutrients.iron)
    folicAcid := items.any (fun item => item.containsMicronutrients.folicAcid)
    protein := items.any (fun item => item.containsMicronutrients.protein)
    vitaminD := some ((items.filter
        (fun item => pyTruthyOptBool item.containsMicronutrients.vitaminD)).any
        (fun item => pyTruthyOptBool item.containsMicronutrients.vitaminD))
    omega3 := some ((items.filter
        (fun item => pyTruthyOptBool item.containsMicronutrients.omega3)).any
        (fun item => pyTruthyOptBool item.containsMicronutrients.omega3))
    fiber := some ((items.filter
        (fun item => pyTruthyOptBool item.containsMicronutrients.fiber)).any
        (fun item => pyTruthyOptBool item.containsMicronutrients.fiber)) }

/-- The accumulator built by the slot loop of `_calculate_daily_summary`: the
`coverage` dictionary (per-nutrient slot-name list and covered flag) together
with the `has_warnings` flag. -/
structure Coverage where
  meals : List String
  covered : Bool
deriving DecidableEq

/-- One nutrient's update inside the slot loop: when the meal's flag is true,
append the slot name and set `covered = True`. -/
def updCoverage (c : Coverage) (flag : Bool) (attr : String) : Coverage :=
  if flag then { meals := c.meals ++ [attr], covered := true } else c

/-- State of the `_calculate_daily_summary` loop. -/
structure SummaryAcc where
  calcium : Coverage
  iron : Coverage
  folicAcid : Coverage
  protein : Coverage
  has_warnings : Bool
deriving DecidableEq

/-- One iteration of the slot loop of `_calculate_daily_summary`: a missing
slot contributes nothing; a present slot updates each nutrient's coverage from
the meal's aggregate flags and raises `has_warnings` when any item warns. -/
def summaryStep (meals : DayMeals) (acc : SummaryAcc) (attr : String) : SummaryAcc :=
  match meals.getSlot attr with
  | none => acc
  | some meal =>
    { calcium := updCoverage acc.calcium meal.containsMicronutrients.calcium attr
      iron := updCoverage acc.iron meal.containsMicronutrients.iron attr
      folicAcid := updCoverage acc.folicAcid meal.containsMicronutrients.folicAcid attr
      protein := updCoverage acc.protein meal.containsMicronutrients.protein attr
      has_warnings :=
        if meal.items.any (fun item => item.hasWarnings) then true else acc.has_warnings }

/-- The fixed slot iteration order used by the service. -/
def slotAttrs : List String := ["breakfast", "snack1", "lunch", "snack2", "dinner"]

/-- The initial `coverage` dictionary and `has_warnings = False`. -/
def initSummaryAcc : SummaryAcc :=
  { calcium := { meals := [], covered := false }
    iron := { meals := [], covered := false }
    folicAcid := { meals := [], covered := false }
    protein := { meals := [], covered := false }
    has_warnings := false }

/-- The inner `get_status(covered, meal_count)` of `_calculate_daily_summary`. -/
def get_status (covered : Bool) (meal_count : Nat) : String :=
  if !covered then "missing"
  else if meal_count ≥ 2 then "good"
  else "moderate"

/-- `MealService._calculate_daily_summary(meals)`. -/
def calculate_daily_summary (meals : DayMeals) : DailySummary :=
  let acc := slotAttrs.foldl (summaryStep meals) initSummaryAcc
  let missing_nutrients :=
    (if !acc.calcium.covered then ["Calcium"] else []) ++
    (if !acc.iron.covered then ["Iron"] else []) ++
    (if !acc.folicAcid.covered then ["Folic Acid"] else []) ++
    (if !acc.protein.covered then ["Protein"] else [])
  { calcium :=
      { covered := acc.calcium.covered
        mealsCovered := acc.calcium.meals
        status := get_status acc.calcium.covered acc.calcium.meals.length }
    iron :=
      { covered := acc.iron.covered
        mealsCovered := acc.iron.meals
        status := get_status acc.iron.covered acc.iron.meals.length }
    folicAcid :=
      { covered := acc.folicAcid.covered
        mealsCovered := acc.folicAcid.meals
        status := get_status acc.folicAcid.covered acc.folicAcid.meals.length }
    protein :=
      { covered := acc.protein.covered
        mealsCovered := acc.protein.meals
        status := get_status acc.protein.covered acc.protein.meals.length }
    hasWarnings := acc.has_warnings
    missingNutrients := missing_nutrients }

/-- `MealService._map_meal_type_to_key(meal_type)`: the fixed five-entry
dictionary with `.get(meal_type, 'breakfast')` fallback. -/
def map_meal_type_to_key (meal_type : String) : String :=
  if meal_type = "Breakfast" then "breakfast"
  else if meal_type = "Snack 1" then "snack1"
  else if meal_type = "Lunch" then "lunch"
  else if meal_type = "Snack 2" then "snack2"
  else if meal_type = "Dinner" then "dinner"
  else "breakfast"

/-- A concrete safe food row used to instantiate hypotheses of the theorems
below at evaluable inputs. -/
def sampleFoodRow : FoodRow :=
  { id := "food-1", name := "Oatmeal", portion := none, macro_category := none,
    rainbow_color := none, phytonutrient_focus := none, is_safe_pregnancy := true,
    warning_message := none, warning_type := none, tags := none, description := none }

@[simp] theorem pyTruthyOptBool_none : pyTruthyOptBool none = false := rfl

@[simp] theorem pyTruthyOptBool_some (b : Bool) : pyTruthyOptBool (some b) = b := by
  cases b <;> rfl

/-- Filtering by Python truthiness of a nullable boolean and `any`-ing the same
predicate coincides with dropping the `None` values and `or`-ing the rest. -/
theorem any_pyTruthy_filter_eq (f : α → Option Bool) (l : List α) :
    ((l.filter (fun x => pyTruthyOptBool (f x))).any (fun x => pyTruthyOptBool (f x)))
      = (l.filterMap f).any id := by
  induction l with
  | nil => rfl
  | cons x l ih =>
    rw [List.filter_cons, List.filterMap_cons]
    cases h : f x with
    | none => simpa [h] using ih
    | some b => cases b <;> simp [h, ih]

/-- C2: per-meal aggregation is the OR over the items' flags for the four core
nutrients; each tri-state flag is a definite value equal to the OR over the
items' definite (non-`None`) values, so a meal whose items are all unknown for
a tri-state nutrient gets `some false`, never `none`. -/
theorem aggregate_micronutrients_spec (items : List FoodItem) :
    ((aggregate_micronutrients items).calcium
        = items.any (fun item => item.containsMicronutrients.calcium) ∧
      (aggregate_micronutrients items).iron
        = items.any (fun item => item.containsMicronutrients.iron) ∧
      (aggregate_micronutrients items).folicAcid
        = items.any (fun item => item.containsMicronutrients.folicAcid) ∧
      (aggregate_micronutrients items).protein
        = items.any (fun item => item.containsMicronutrients.protein)) ∧
    ((aggregate_micronutrients items).vitaminD
        = some ((items.filterMap (fun item => item.containsMicronutrients.vitaminD)).any id) ∧
      (aggregate_micronutrients items).omega3
        = some ((items.filterMap (fun item => item.containsMicronutrients.omega3)).any id) ∧
      (aggregate_micronutrients items).fiber
        = some ((items.filterMap (fun item => item.containsMicronutrients.fiber)).any id)) ∧
    ((∀ item ∈ items, item.containsMicronutrients.vitaminD = none) →
        (aggregate_micronutrients items).vitaminD = some false) ∧
    ((∀ item ∈ items, item.containsMicronutrients.omega3 = none) →
        (aggregate_micronutrients items).omega3 = some false) ∧
    ((∀ item ∈ items, item.containsMicronutrients.fiber = none) →
        (aggregate_micronutrients items).fiber = some false) := by
  have hv := any_pyTruthy_filter_eq (fun item : FoodItem => item.containsMicronutrients.vitaminD) items
  have ho := any_pyTruthy_filter_eq (fun item : FoodItem => item.containsMicronutrients.omega3) items
  have hf := any_pyTruthy_filter_eq (fun item : FoodItem => item.containsMicronutrients.fiber) items
  refine ⟨⟨rfl, rfl, rfl, rfl⟩, ⟨?_, ?_, ?_⟩, ?_, ?_, ?_⟩
  · simpa [aggregate_micronutrients] using congrArg some hv
  · simpa [aggregate_micronutrients] using congrArg some ho
  · simpa [aggregate_micronutrients] using congrArg some hf
  · intro h
    have : items.filterMap (fun item => item.containsMicronutrients.vitaminD) = [] :=
      List.filterMap_eq_nil_iff.2 h
    simp [aggregate_micronutrients, hv, this]
  · intro h
    have : items.filterMap (fun item => item.containsMicronutrients.omega3) = [] :=
      List.filterMap_eq_nil_iff.2 h
    simp [aggregate_micronutrients, ho, this]
  · intro h
    have : items.filterMap (fun item => item.containsMicronutrients.fiber) = [] :=
      List.filterMap_eq_nil_iff.2 h
    simp [aggregate_micronutrients, hf, this]

/-- Witness for C2 at a one-item meal whose tri-state nutrients are all
unknown: the aggregate tri-state flags come out `some false`. -/
theorem aggregate_micronutrients_spec_witness :
    (aggregate_micronutrients [map_food_item sampleFoodRow []]).vitaminD = some false ∧
    (aggregate_micronutrients [map_food_item sampleFoodRow []]).omega3 = some false ∧
    (aggregate_micronutrients [map_food_item sampleFoodRow []]).fiber = some false :=
  ⟨(aggregate_micronutrients_spec [map_food_item sampleFoodRow []]).2.2.1 (by decide),
   (aggregate_micronutrients_spec [map_food_item sampleFoodRow []]).2.2.2.1 (by decide),
   (aggregate_micronutrients_spec [map_food_item sampleFoodRow []]).2.2.2.2 (by decide)⟩

/-- C4: the mapped food's boolean nutrient flags test membership of the
canonical names in the nutrient list, with folic acid keyed on "folate"; the
tri-state flags are `none` exactly when the list is empty and otherwise test
membership of their canonical names. -/
theorem map_food_item_nutrient_flags (row : FoodRow) (nutrients : List String) :
    (((map_food_item row nutrients).containsMicronutrients.calcium = true ↔
        "calcium" ∈ nutrients) ∧
      ((map_food_item row nutrients).containsMicronutrients.iron = true ↔
        "iron" ∈ nutrients) ∧
      ((map_food_item row nutrients).containsMicronutrients.protein = true ↔
        "protein" ∈ nutrients) ∧
      ((map_food_item row nutrients).containsMicronutrients.folicAcid = true ↔
        "folate" ∈ nutrients)) ∧
    (nutrients = [] →
      (map_food_item row nutrients).containsMicronutrients.vitaminD = none ∧
      (map_food_item row nutrients).containsMicronutrients.omega3 = none ∧
      (map_food_item row nutrients).containsMicronutrients.fiber = none) ∧
    (nutrients ≠ [] →
      (map_food_item row nutrients).containsMicronutrients.vitaminD
          = some (decide ("vitamin_d" ∈ nutrients)) ∧
      (map_food_item row nutrients).containsMicronutrients.omega3
          = some (decide ("dha" ∈ nutrients)) ∧
      (map_food_item row nutrients).containsMicronutrients.fiber
          = some (decide ("fiber" ∈ nutrients))) := by
  refine ⟨⟨?_, ?_, ?_, ?_⟩, ?_, ?_⟩
  · simp [map_food_item]
  · simp [map_food_item]
  · simp [map_food_item]
  · simp [map_food_item]
  · intro h
    subst h
    exact ⟨rfl, rfl, rfl⟩
  · intro h
    have he : nutrients.isEmpty = false := by
      simpa [List.isEmpty_iff] using h
    refine ⟨?_, ?_, ?_⟩ <;>
      simp [map_food_item, he, List.contains_iff_exists_mem_beq, beq_iff_eq, eq_comm]

/-- Witness for C4 at the list `["folate"]` (and the empty list for the
unknown case): folic acid reads the name "folate", and the tri-state flags are
definite `some false` for a non-empty list with no match but `none` for the
empty list. -/
theorem map_food_item_nutrient_flags_witness :
    ((map_food_item sampleFoodRow ["folate"]).containsMicronutrients.folicAcid = true ↔
      "folate" ∈ (["folate"] : List String)) ∧
    (map_food_item sampleFoodRow ["folate"]).containsMicronutrients.vitaminD = some false ∧
    (map_food_item sampleFoodRow []).containsMicronutrients.vitaminD = none :=
  ⟨(map_food_item_nutrient_flags sampleFoodRow ["folate"]).1.2.2.2,
   by
    have h := ((map_food_item_nutrient_flags sampleFoodRow ["folate"]).2.2 (by decide)).1
    simpa using h,
   ((map_food_item_nutrient_flags sampleFoodRow []).2.1 rfl).1⟩

/-- C8: the slot-key mapping sends exactly the five stored labels to their
canonical keys, and every other label — including case or spacing variants —
silently falls back to "breakfast". -/
theorem map_meal_type_to_key_spec :
    map_meal_type_to_key "Breakfast" = "breakfast" ∧
    map_meal_type_to_key "Snack 1" = "snack1" ∧
    map_meal_type_to_key "Lunch" = "lunch" ∧
    map_meal_type_to_key "Snack 2" = "snack2" ∧
    map_meal_type_to_key "Dinner" = "dinner" ∧
    ∀ t : String,
      t ∉ (["Breakfast", "Snack 1", "Lunch", "Snack 2", "Dinner"] : List String) →
      map_meal_type_to_key t = "breakfast" := by
  refine ⟨rfl, rfl, rfl, rfl, rfl, ?_⟩
  intro t ht
  simp only [List.mem_cons, List.not_mem_nil, or_false, not_or] at ht
  obtain ⟨h1, h2, h3, h4, h5⟩ := ht
  simp [map_meal_type_to_key, h1, h2, h3, h4, h5]

/-- Witness for C8 at the unrecognized labels "snack 1" (case variant) and
"Brunch": both collapse into "breakfast". -/
theorem map_meal_type_to_key_spec_witness :
    map_meal_type_to_key "snack 1" = "breakfast" ∧
    map_meal_type_to_key "Brunch" = "breakfast" :=
  ⟨map_meal_type_to_key_spec.2.2.2.2.2 "snack 1" (by decide),
   map_meal_type_to_key_spec.2.2.2.2.2 "Brunch" (by decide)⟩

/-- C9: a mapped food has `hasWarnings = true` exactly when the stored row is
flagged not safe for pregnancy or carries a non-empty warning message. -/
theorem map_food_item_hasWarnings (row : FoodRow) (nutrients : List String) :
    ((map_food_item row nutrients).hasWarnings = true ↔
      (row.is_safe_pregnancy = false ∨
        ∃ s, row.warning_message = some s ∧ s ≠ "")) := by
  cases h : row.warning_message with
  | none => simp [map_food_item, pyTruthyOptStr, h]
  | some s => simp [map_food_item, pyTruthyOptStr, h]

/-- A meal slot's contribution to the summary loop: the flag of the slot's
meal under `f`, or `false` when the slot is absent. -/
def slotFlag (meals : DayMeals) (f : Meal → Bool) (attr : String) : Bool :=
  match meals.getSlot attr with
  | some meal => f meal
  | none => false

theorem updCoverage_meals (c : Coverage) (flag : Bool) (a : String) :
    (updCoverage c flag a).meals = c.meals ++ (if flag then [a] else []) := by
  cases flag <;> simp [updCoverage]

theorem updCoverage_covered (c : Coverage) (flag : Bool) (a : String) :
    (updCoverage c flag a).covered = (c.covered || flag) := by
  cases flag <;> simp [updCoverage]

theorem append_if_singleton (b : Bool) (x : α) (l1 l2 : List α) :
    l1 ++ (if b then [x] else []) ++ l2 = l1 ++ (if b then x :: l2 else l2) := by
  cases b <;> simp

theorem if_then_true_else (b c : Bool) : (if b then true else c) = (c || b) := by
  cases b <;> simp

/-- The slot loop of `_calculate_daily_summary`, characterised: each nutrient
collects the slot names whose meal has the flag, in iteration order, and each
covered flag is the OR of the slot flags; `has_warnings` is the OR of the
per-slot item-warning checks. -/
theorem foldl_summaryStep (meals : DayMeals) (attrs : List String) (acc : SummaryAcc) :
    attrs.foldl (summaryStep meals) acc =
      { calcium :=
          { meals := acc.calcium.meals ++
              attrs.filter (slotFlag meals (fun m => m.containsMicronutrients.calcium))
            covered := acc.calcium.covered ||
              attrs.any (slotFlag meals (fun m => m.containsMicronutrients.calcium)) }
        iron :=
          { meals := acc.iron.meals ++
              attrs.filter (slotFlag meals (fun m => m.containsMicronutrients.iron))
            covered := acc.iron.covered ||
              attrs.any (slotFlag meals (fun m => m.containsMicronutrients.iron)) }
        folicAcid :=
          { meals := acc.folicAcid.meals ++
              attrs.filter (slotFlag meals (fun m => m.containsMicronutrients.folicAcid))
            covered := acc.folicAcid.covered ||
              attrs.any (slotFlag meals (fun m => m.containsMicronutrients.folicAcid)) }
        protein :=
          { meals := acc.protein.meals ++
              attrs.filter (slotFlag meals (fun m => m.containsMicronutrients.protein))
            covered := acc.protein.covered ||
              attrs.any (slotFlag meals (fun m => m.containsMicronutrients.protein)) }
        has_warnings := acc.has_warnings ||
          attrs.any (slotFlag meals (fun m => m.items.any (fun item => item.hasWarnings))) } := by
  induction attrs generalizing acc with
  | nil => simp
  | cons a attrs ih =>
    rw [List.foldl_cons, ih]
    cases h : meals.getSlot a with
    | none =>
      simp [summaryStep, slotFlag, h, List.filter_cons, List.any_cons]
    | some meal =>
      simp only [summaryStep, h, slotFlag, List.filter_cons, List.any_cons,
        updCoverage_meals, updCoverage_covered, if_then_true_else,
        append_if_singleton, Bool.or_assoc]

/-- Classification of `get_status` applied to the covered flag and covering
count of a slot filter: `missing` iff not covered, `good` iff at least two
covering slots, `moderate` iff exactly one. -/
theorem get_status_of_any_filter (p : String → Bool) (attrs : List String) :
    (get_status (attrs.any p) (attrs.filter p).length = "missing" ↔ attrs.any p = false) ∧
    (get_status (attrs.any p) (attrs.filter p).length = "good" ↔
      2 ≤ (attrs.filter p).length) ∧
    (get_status (attrs.any p) (attrs.filter p).length = "moderate" ↔
      (attrs.filter p).length = 1) := by
  cases h : attrs.any p with
  | false =>
    have h0 : attrs.filter p = [] := List.filter_eq_nil_iff.2 (by simpa using h)
    simp [get_status, h0]
  | true =>
    have h1 : 0 < (attrs.filter p).length := by
      obtain ⟨x, hx, px⟩ := List.any_eq_true.1 h
      exact List.length_pos_of_mem (List.mem_filter.2 ⟨hx, px⟩)
    by_cases h2 : 2 ≤ (attrs.filter p).length
    · simp [get_status, h2]
      omega
    · simp [get_status, h2]
      omega

theorem filter_name_list (c1 c2 c3 c4 : Bool) :
    (([("Calcium", c1), ("Iron", c2), ("Folic Acid", c3), ("Protein", c4)] :
        List (String × Bool)).filter (fun nc => !nc.2)).map Prod.fst =
      (if !c1 then ["Calcium"] else []) ++ (if !c2 then ["Iron"] else []) ++
      (if !c3 then ["Folic Acid"] else []) ++ (if !c4 then ["Protein"] else []) := by
  cases c1 <;> cases c2 <;> cases c3 <;> cases c4 <;> rfl

/-- C1: in the computed daily summary, each core nutrient's `covered` is the OR
of the five slot flags taken in the fixed slot order, `mealsCovered` is the
list of slot names with the flag true in that order, the status is `missing`
iff not covered, `good` iff at least two covering slots and `moderate` iff
exactly one, and `missingNutrients` lists the display names of the uncovered
nutrients in the fixed order Calcium, Iron, Folic Acid, Protein. -/
theorem calculate_daily_summary_spec (meals : DayMeals) :
    ((calculate_daily_summary meals).calcium.covered
        = slotAttrs.any (slotFlag meals (fun m => m.containsMicronutrients.calcium)) ∧
      (calculate_daily_summary meals).calcium.mealsCovered
        = slotAttrs.filter (slotFlag meals (fun m => m.containsMicronutrients.calcium)) ∧
      ((calculate_daily_summary meals).calcium.status = "missing" ↔
        (calculate_daily_summary meals).calcium.covered = false) ∧
      ((calculate_daily_summary meals).calcium.status = "good" ↔
        2 ≤ (slotAttrs.filter (slotFlag meals (fun m => m.containsMicronutrients.calcium))).length) ∧
      ((calculate_daily_summary meals).calcium.status = "moderate" ↔
        (slotAttrs.filter (slotFlag meals (fun m => m.containsMicronutrients.calcium))).length = 1)) ∧
    ((calculate_daily_summary meals).iron.covered
        = slotAttrs.any (slotFlag meals (fun m => m.containsMicronutrients.iron)) ∧
      (calculate_daily_summary meals).iron.mealsCovered
        = slotAttrs.filter (slotFlag meals (fun m => m.containsMicronutrients.iron)) ∧
      ((calculate_daily_summary meals).iron.status = "missing" ↔
        (calculate_daily_summary meals).iron.covered = false) ∧
      ((calculate_daily_summary meals).iron.status = "good" ↔
        2 ≤ (slotAttrs.filter (slotFlag meals (fun m => m.containsMicronutrients.iron))).length) ∧
      ((calculate_daily_summary meals).iron.status = "moderate" ↔
        (slotAttrs.filter (slotFlag meals (fun m => m.containsMicronutrients.iron))).length = 1)) ∧
    ((calculate_daily_summary meals).folicAcid.covered
        = slotAttrs.any (slotFlag meals (fun m => m.containsMicronutrients.folicAcid)) ∧
      (calculate_daily_summary meals).folicAcid.mealsCovered
        = slotAttrs.filter (slotFlag meals (fun m => m.containsMicronutrients.folicAcid)) ∧
      ((calculate_daily_summary meals).folicAcid.status = "missing" ↔
        (calculate_daily_summary meals).folicAcid.covered = false) ∧
      ((calculate_daily_summary meals).folicAcid.status = "good" ↔
        2 ≤ (slotAttrs.filter (slotFlag meals (fun m => m.containsMicronutrients.folicAcid))).length) ∧
      ((calculate_daily_summary meals).folicAcid.status = "moderate" ↔
        (slotAttrs.filter (slotFlag meals (fun m => m.containsMicronutrients.folicAcid))).length = 1)) ∧
    ((calculate_daily_summary meals).protein.covered
        = slotAttrs.any (slotFlag meals (fun m => m.containsMicronutrients.protein)) ∧
      (calculate_daily_summary meals).protein.mealsCovered
        = slotAttrs.filter (slotFlag meals (fun m => m.containsMicronutrients.protein)) ∧
      ((calculate_daily_summary meals).protein.status = "missing" ↔
        (calculate_daily_summary meals).protein.covered = false) ∧
      ((calculate_daily_summary meals).protein.status = "good" ↔
        2 ≤ (slotAttrs.filter (slotFlag meals (fun m => m.containsMicronutrients.protein))).length) ∧
      ((calculate_daily_summary meals).protein.status = "moderate" ↔
        (slotAttrs.filter (slotFlag meals (fun m => m.containsMicronutrients.protein))).length = 1)) ∧
    (calculate_daily_summary meals).missingNutrients
      = (([("Calcium", (calculate_daily_summary meals).calcium.covered),
           ("Iron", (calculate_daily_summary meals).iron.covered),
           ("Folic Acid", (calculate_daily_summary meals).folicAcid.covered),
           ("Protein", (calculate_daily_summary meals).protein.covered)] :
            List (String × Bool)).filter (fun nc => !nc.2)).map Prod.fst := by
  have hfold := foldl_summaryStep meals slotAttrs initSummaryAcc
  have hcal := get_status_of_any_filter
    (slotFlag meals (fun m => m.containsMicronutrients.calcium)) slotAttrs
  have hiron := get_status_of_any_filter
    (slotFlag meals (fun m => m.containsMicronutrients.iron)) slotAttrs
  have hfol := get_status_of_any_filter
    (slotFlag meals (fun m => m.containsMicronutrients.folicAcid)) slotAttrs
  have hpro := get_status_of_any_filter
    (slotFlag meals (fun m => m.containsMicronutrients.protein)) slotAttrs
  rw [filter_name_list]
  simp only [initSummaryAcc, List.nil_append, Bool.false_or] at hfold
  simp only [calculate_daily_summary, initSummaryAcc, hfold]
  exact ⟨⟨trivial, trivial, hcal.1, hcal.2.1, hcal.2.2⟩,
    ⟨trivial, trivial, hiron.1, hiron.2.1, hiron.2.2⟩,
    ⟨trivial, trivial, hfol.1, hfol.2.1, hfol.2.2⟩,
    ⟨trivial, trivial, hpro.1, hpro.2.1, hpro.2.2⟩, trivial⟩

/-- `FoodItemCreate` (models.py). -/
structure FoodItemCreate where
  name : String
  portion : Option String
  macroCategory : Option String
  rainbowColor : Option String
  phytonutrientFocus : Option String
  containsMicronutrients : MicronutrientPresence
  hasWarnings : Bool
  warningMessage : Option String
  warningType : Option String
  tags : Option (List String)
  description : Option String
deriving DecidableEq

/-- A row of the `meals` table. -/
structure MealRow where
  id : Nat
  user_id : String
  log_date : Nat
  day_of_week : String
  meal_type : String
  notes : Option String
deriving DecidableEq

/-- A row of the `meal_items` table.  `sort_order` is an `Int` because the
next-order query computes `COALESCE(MAX(sort_order), -1) + 1`. -/
structure MealItemRow where
  id : Nat
  meal_id : Nat
  food_id : String
  sort_order : Int
deriving DecidableEq

/-- A row of the `nutrients` table. -/
structure NutrientRow where
  id : Nat
  name : String
deriving DecidableEq

/-- A row of the `food_nutrients` join table. -/
structure FoodNutrientRow where
  food_id : String
  nutrient_id : Nat
  is_present : Bool
deriving DecidableEq

/-- The relational store consumed by `MealService`, with fresh-id supplies for
the rows generated by INSERT (UUIDs for foods, serial ids for meals and meal
items: only freshness matters to the service). -/
structure DB where
  foods : List FoodRow
  nutrients : List NutrientRow
  food_nutrients : List FoodNutrientRow
  meals : List MealRow
  meal_items : List MealItemRow
  nextFoodId : Nat
  nextMealId : Nat
  nextItemId : Nat
deriving DecidableEq

/-- `_get_food_nutrients_map` evaluated at one food id: the names of the
nutrients reached from `food_nutrients` rows with `is_present = true` through
an inner join with `nutrients` (the batched query groups the same join rows by
food id). -/
def food_nutrient_names (db : DB) (food_id : String) : List String :=
  (db.food_nutrients.filter (fun fn => fn.food_id = food_id && fn.is_present)).filterMap
    (fun fn => (db.nutrients.find? (fun n => n.id = fn.nutrient_id)).map (fun n => n.name))

/-- The nutrient-name list built by `_insert_nutrient_mappings` from the input
flags (Python truthiness: tri-state flags contribute only when `some true`). -/
def nutrient_names_of (m : MicronutrientPresence) : List String :=
  (if m.calcium then ["calcium"] else []) ++
  (if m.iron then ["iron"] else []) ++
  (if m.folicAcid then ["folate"] else []) ++
  (if m.protein then ["protein"] else []) ++
  (if pyTruthyOptBool m.vitaminD then ["vitamin_d"] else []) ++
  (if pyTruthyOptBool m.omega3 then ["dha"] else []) ++
  (if pyTruthyOptBool m.fiber then ["fiber"] else [])

/-- `MealService._insert_nutrient_mappings(food_id, micronutrients)`: one
`INSERT ... SELECT` adding a `food_nutrients` row for every `nutrients` row
whose name is in the flag-derived list. -/
def insert_nutrient_mappings (db : DB) (food_id : String) (m : MicronutrientPresence) : DB :=
  { db with
      food_nutrients := db.food_nutrients ++
        (db.nutrients.filter (fun n => (nutrient_names_of m).contains n.name)).map
          (fun n => { food_id := food_id, nutrient_id := n.id, is_present := true }) }

/-- `MealService.create_food(food)`: INSERT the food row (storing
`is_safe_pregnancy = not food.hasWarnings`) RETURNING the row, insert the
nutrient mappings, and map the returned row through `_map_food_item(result)` —
the Python call omits `nutrients`, whose `None` default is normalised to the
empty list. -/
def create_food (db : DB) (food : FoodItemCreate) : DB × FoodItem :=
  let row : FoodRow :=
    { id := toString db.nextFoodId, name := food.name, portion := food.portion,
      macro_category := food.macroCategory, rainbow_color := food.rainbowColor,
      phytonutrient_focus := food.phytonutrientFocus,
      is_safe_pregnancy := !food.hasWarnings,
      warning_message := food.warningMessage, warning_type := food.warningType,
      tags := food.tags, description := food.description }
  let db1 := { db with foods := db.foods ++ [row], nextFoodId := db.nextFoodId + 1 }
  let db2 := insert_nutrient_mappings db1 row.id food.containsMicronutrients
  (db2, map_food_item row [])

/-- The conflict key of the `meals` table: `(user_id, log_date, meal_type)`. -/
def meal_key_match (user_id : String) (date : Nat) (meal_type : String) (m : MealRow) : Bool :=
  m.user_id = user_id && m.log_date = date && m.meal_type = meal_type

/-- The `DO UPDATE SET day_of_week = EXCLUDED.day_of_week` effect on one row. -/
def upd_day_of_week (user_id : String) (date : Nat) (day_of_week : String)
    (meal_type : String) (x : MealRow) : MealRow :=
  if meal_key_match user_id date meal_type x then { x with day_of_week := day_of_week } else x

/-- The `INSERT INTO meals ... ON CONFLICT (user_id, log_date, meal_type)
DO UPDATE SET day_of_week = EXCLUDED.day_of_week ... RETURNING id` statement
shared by `upsert_meal` and `add_meal_item`: on conflict, update the
conflicting row's `day_of_week` and return its id; otherwise insert a fresh
row and return the new id. -/
def upsert_meal_header (db : DB) (user_id : String) (date : Nat) (day_of_week : String)
    (meal_type : String) : DB × Nat :=
  match db.meals.find? (meal_key_match user_id date meal_type) with
  | some m =>
    ({ db with meals := db.meals.map (upd_day_of_week user_id date day_of_week meal_type) },
      m.id)
  | none =>
    ({ db with
        meals := db.meals ++
          [{ id := db.nextMealId
             user_id := user_id
             log_date := date
             day_of_week := day_of_week
             meal_type := meal_type
             notes := none }]
        nextMealId := db.nextMealId + 1 }, db.nextMealId)

/-- `MealService.upsert_meal`: upsert the header, delete every `meal_items`
row of the returned meal id, then insert the given food ids with enumerate
indices as `sort_order` (the initial `queries` list in the source is built but
never executed and has no effect). -/
def upsert_meal (db : DB) (user_id : String) (date : Nat) (day_of_week : String)
    (meal_type : String) (food_item_ids : List String) : DB :=
  let p := upsert_meal_header db user_id date day_of_week meal_type
  let meal_id := p.2
  let db2 := { p.1 with meal_items := p.1.meal_items.filter (fun it => !(it.meal_id = meal_id)) }
  { db2 with
      meal_items := db2.meal_items ++
        (food_item_ids.enum.map (fun e =>
          { id := db2.nextItemId + e.1, meal_id := meal_id, food_id := e.2,
            sort_order := (e.1 : Int) }))
      nextItemId := db2.nextItemId + food_item_ids.length }

/-- The `SELECT COALESCE(MAX(sort_order), -1) + 1 ... WHERE meal_id = %s`
query of `add_meal_item`. -/
def next_order_of (db : DB) (meal_id : Nat) : Int :=
  ((db.meal_items.filter (fun it => it.meal_id = meal_id)).foldl
    (fun acc it => max acc it.sort_order) (-1)) + 1

/-- `MealService.add_meal_item`: upsert the header, compute
`COALESCE(MAX(sort_order), -1) + 1` over the slot's items, and insert exactly
one item at that index. -/
def add_meal_item (db : DB) (user_id : String) (date : Nat) (day_of_week : String)
    (meal_type : String) (food_item_id : String) : DB :=
  let p := upsert_meal_header db user_id date day_of_week meal_type
  let meal_id := p.2
  let next_order : Int := next_order_of p.1 meal_id
  { p.1 with
      meal_items := p.1.meal_items ++
        [{ id := p.1.nextItemId
           meal_id := meal_id
           food_id := food_item_id
           sort_order := next_order }]
      nextItemId := p.1.nextItemId + 1 }

/-- `MealService.remove_meal_item`: `DELETE FROM meal_items WHERE meal_id = %s
AND food_id = %s`. -/
def remove_meal_item (db : DB) (meal_id : Nat) (food_item_id : String) : DB :=
  { db with
      meal_items := db.meal_items.filter
        (fun it => !(it.meal_id = meal_id && it.food_id = food_item_id)) }

/-- The ordered food-id list of a slot: its `meal_items` rows ordered by index
value (`ORDER BY mi.sort_order`, realised here as a stable sort on
`sort_order`), projected to food ids. -/
def slot_food_ids (db : DB) (meal_id : Nat) : List String :=
  (List.insertionSort (fun a b => a.sort_order ≤ b.sort_order)
    (db.meal_items.filter (fun it => it.meal_id = meal_id))).map (fun it => it.food_id)

/-- The store with no rows. -/
def emptyDB : DB :=
  { foods := [], nutrients := [], food_nutrients := [], meals := [], meal_items := [],
    nextFoodId := 0, nextMealId := 0, nextItemId := 0 }

/-- C10: the `FoodItem` returned by create-food carries the all-false /
all-unknown micronutrient defaults regardless of the flags supplied in the
input, even though the nutrient mappings derived from those flags are written
to storage: the response does not reflect the nutrients just created. -/
theorem create_food_response_nutrients (db : DB) (food : FoodItemCreate) :
    (create_food db food).2.containsMicronutrients = MicronutrientPresence.defaults ∧
    (create_food db food).1.food_nutrients = db.food_nutrients ++
      (db.nutrients.filter
        (fun n => (nutrient_names_of food.containsMicronutrients).contains n.name)).map
        (fun n => ({ food_id := toString db.nextFoodId, nutrient_id := n.id,
                     is_present := true } : FoodNutrientRow)) :=
  ⟨rfl, rfl⟩

theorem upsert_meal_header_meal_items (db : DB) (u : String) (d : Nat) (w t : String) :
    (upsert_meal_header db u d w t).1.meal_items = db.meal_items := by
  unfold upsert_meal_header
  split <;> rfl

theorem upsert_meal_header_nextItemId (db : DB) (u : String) (d : Nat) (w t : String) :
    (upsert_meal_header db u d w t).1.nextItemId = db.nextItemId := by
  unfold upsert_meal_header
  split <;> rfl

/-- The new `meal_items` rows inserted by `upsert_meal` for a slot id. -/
def upsert_new_rows (db : DB) (meal_id : Nat) (food_item_ids : List String) :
    List MealItemRow :=
  food_item_ids.enum.map (fun e =>
    { id := db.nextItemId + e.1, meal_id := meal_id, food_id := e.2,
      sort_order := (e.1 : Int) })

theorem upsert_meal_meal_items (db : DB) (u : String) (d : Nat) (w t : String)
    (fids : List String) :
    (upsert_meal db u d w t fids).meal_items =
      db.meal_items.filter (fun it => !(it.meal_id = (upsert_meal_header db u d w t).2)) ++
        upsert_new_rows db (upsert_meal_header db u d w t).2 fids := by
  simp only [upsert_meal, upsert_new_rows, upsert_meal_header_meal_items,
    upsert_meal_header_nextItemId]

theorem le_fst_of_mem_enumFrom {α : Type _} {x : Nat × α} :
    ∀ {n : Nat} {l : List α}, x ∈ l.enumFrom n → n ≤ x.1 := by
  intro n l
  induction l generalizing n with
  | nil => intro h; simp at h
  | cons a l ih =>
    intro h
    rw [List.enumFrom_cons] at h
    rcases List.mem_cons.1 h with h | h
    · subst h; exact Nat.le_refl n
    · exact Nat.le_of_succ_le (ih h)

theorem pairwise_fst_lt_enumFrom {α : Type _} (n : Nat) (l : List α) :
    (l.enumFrom n).Pairwise (fun a b => a.1 < b.1) := by
  induction l generalizing n with
  | nil => simp
  | cons x l ih =>
    rw [List.enumFrom_cons]
    refine List.Pairwise.cons ?_ (ih (n + 1))
    intro y hy
    exact Nat.lt_of_lt_of_le (Nat.lt_succ_self n) (le_fst_of_mem_enumFrom hy)

theorem upsert_new_rows_sorted (db : DB) (mid : Nat) (fids : List String) :
    (upsert_new_rows db mid fids).Pairwise
      (fun a b => a.sort_order ≤ b.sort_order) := by
  unfold upsert_new_rows
  refine List.pairwise_map.2 ?_
  refine (pairwise_fst_lt_enumFrom 0 fids).imp ?_
  intro a b h
  show ((a.1 : Int) ≤ (b.1 : Int))
  exact_mod_cast Nat.le_of_lt h

/-- After `upsert_meal`, the slot's item rows are exactly the freshly inserted
ones. -/
theorem upsert_meal_slot_rows (db : DB) (u : String) (d : Nat) (w t : String)
    (fids : List String) :
    (upsert_meal db u d w t fids).meal_items.filter
        (fun it => it.meal_id = (upsert_meal_header db u d w t).2)
      = upsert_new_rows db (upsert_meal_header db u d w t).2 fids := by
  rw [upsert_meal_meal_items, List.filter_append]
  have h1 : (db.meal_items.filter
      (fun it => !(it.meal_id = (upsert_meal_header db u d w t).2))).filter
        (fun it => it.meal_id = (upsert_meal_header db u d w t).2) = [] := by
    rw [List.filter_filter]
    refine List.filter_eq_nil_iff.2 ?_
    intro a _
    by_cases h : a.meal_id = (upsert_meal_header db u d w t).2 <;> simp [h]
  have h2 : (upsert_new_rows db (upsert_meal_header db u d w t).2 fids).filter
        (fun it => it.meal_id = (upsert_meal_header db u d w t).2)
      = upsert_new_rows db (upsert_meal_header db u d w t).2 fids := by
    refine List.filter_eq_self.2 ?_
    intro a ha
    obtain ⟨e, _, rfl⟩ := List.mem_map.1 ha
    simp
  rw [h1, h2, List.nil_append]

/-- After `upsert_meal`, the slot's ordered food-id list is exactly the given
list. -/
theorem slot_food_ids_upsert (db : DB) (u : String) (d : Nat) (w t : String)
    (fids : List String) :
    slot_food_ids (upsert_meal db u d w t fids) (upsert_meal_header db u d w t).2 = fids := by
  unfold slot_food_ids
  rw [upsert_meal_slot_rows,
    List.Sorted.insertionSort_eq
      (upsert_new_rows_sorted db (upsert_meal_header db u d w t).2 fids)]
  unfold upsert_new_rows
  rw [List.map_map]
  exact List.enumFrom_map_snd 0 fids

/-- The fresh header row inserted when no `(user_id, log_date, meal_type)` row
conflicts. -/
def new_meal_row (db : DB) (u : String) (d : Nat) (w t : String) : MealRow :=
  { id := db.nextMealId, user_id := u, log_date := d, day_of_week := w,
    meal_type := t, notes := none }

theorem upd_day_of_week_id (u : String) (d : Nat) (w t : String) (x : MealRow) :
    (upd_day_of_week u d w t x).id = x.id := by
  unfold upd_day_of_week
  split <;> rfl

theorem meal_key_match_upd (u : String) (d : Nat) (w t : String) (x : MealRow) :
    meal_key_match u d t (upd_day_of_week u d w t x) = meal_key_match u d t x := by
  unfold upd_day_of_week
  split <;> rfl

/-- Branch behaviour of the header upsert: a fresh row (with the next meal id)
on no conflict, a day-of-week map (keeping the conflicting row's id) on
conflict. -/
theorem upsert_meal_header_spec (db : DB) (u : String) (d : Nat) (w t : String) :
    (db.meals.find? (meal_key_match u d t) = none →
      (upsert_meal_header db u d w t).1.meals = db.meals ++ [new_meal_row db u d w t] ∧
      (upsert_meal_header db u d w t).2 = db.nextMealId) ∧
    (∀ m, db.meals.find? (meal_key_match u d t) = some m →
      (upsert_meal_header db u d w t).2 = m.id ∧
      (upsert_meal_header db u d w t).1.meals
        = db.meals.map (upd_day_of_week u d w t)) := by
  constructor
  · intro h
    unfold upsert_meal_header
    rw [h]
    exact ⟨rfl, rfl⟩
  · intro m h
    unfold upsert_meal_header
    rw [h]
    exact ⟨rfl, rfl⟩

theorem find?_upsert_meal_meals (db : DB) (u : String) (d : Nat) (w t : String)
    (fids : List String) :
    (upsert_meal db u d w t fids).meals.find? (meal_key_match u d t)
      = some (match db.meals.find? (meal_key_match u d t) with
          | some m => upd_day_of_week u d w t m
          | none => new_meal_row db u d w t) := by
  have hm : (upsert_meal db u d w t fids).meals = (upsert_meal_header db u d w t).1.meals := rfl
  rw [hm]
  cases h : db.meals.find? (meal_key_match u d t) with
  | none =>
    rw [((upsert_meal_header_spec db u d w t).1 h).1]
    rw [List.find?_append, h]
    have hp : meal_key_match u d t (new_meal_row db u d w t) = true := by
      simp [meal_key_match, new_meal_row]
    simp [List.find?_cons, hp]
  | some m =>
    rw [((upsert_meal_header_spec db u d w t).2 m h).2]
    rw [List.find?_map]
    have hcomp : (meal_key_match u d t ∘ upd_day_of_week u d w t) = meal_key_match u d t :=
      funext (fun x => meal_key_match_upd u d w t x)
    rw [hcomp, h]
    rfl

/-- Re-running the header upsert after an `upsert_meal` resolves the same slot
id. -/
theorem upsert_meal_header_id_stable (db : DB) (u : String) (d : Nat) (w t : String)
    (fids : List String) (w' : String) :
    (upsert_meal_header (upsert_meal db u d w t fids) u d w' t).2
      = (upsert_meal_header db u d w t).2 := by
  unfold upsert_meal_header
  rw [find?_upsert_meal_meals]
  cases h : db.meals.find? (meal_key_match u d t) with
  | none => simp [h, new_meal_row]
  | some m => simp [h, upd_day_of_week_id]

theorem le_foldl_max (l : List Int) (a : Int) : a ≤ l.foldl max a := by
  induction l generalizing a with
  | nil => exact le_refl a
  | cons x l ih => exact le_trans (le_max_left a x) (ih (max a x))

theorem mem_le_foldl_max (l : List Int) (a : Int) {x : Int} (h : x ∈ l) :
    x ≤ l.foldl max a := by
  induction l generalizing a with
  | nil => cases h
  | cons y l ih =>
    rcases List.mem_cons.1 h with rfl | h2
    · exact le_trans (le_max_right a x) (le_foldl_max l (max a x))
    · exact ih (max a y) h2

theorem foldl_max_mem (l : List Int) (a : Int) : l.foldl max a = a ∨ l.foldl max a ∈ l := by
  induction l generalizing a with
  | nil => left; rfl
  | cons x l ih =>
    rw [List.foldl_cons]
    rcases ih (max a x) with h | h
    · rcases le_total a x with hax | hax
      · right
        rw [h, max_eq_right hax]
        exact List.mem_cons_self x l
      · left
        rw [h, max_eq_left hax]
    · right
      exact List.mem_cons_of_mem x h

theorem next_order_of_header (db : DB) (u : String) (d : Nat) (w t : String) (mid : Nat) :
    next_order_of (upsert_meal_header db u d w t).1 mid = next_order_of db mid := by
  unfold next_order_of
  rw [upsert_meal_header_meal_items]

/-- C5: upsert-slot creates the slot header (with a fresh id) or updates it on
conflict (only day-of-week changes; the conflicting row keeps its id), replaces
the slot's item rows by the given food ids with zero-based sort indices
preserving order (the empty list yields an existing slot with no items, not a
deleted slot), and a second call with the same arguments leaves the slot's
ordered food-id list unchanged. -/
theorem upsert_meal_spec (db : DB) (u : String) (d : Nat) (w t : String)
    (fids : List String) :
    ((db.meals.find? (meal_key_match u d t) = none →
        (upsert_meal db u d w t fids).meals = db.meals ++ [new_meal_row db u d w t] ∧
        (upsert_meal_header db u d w t).2 = db.nextMealId) ∧
      (∀ m, db.meals.find? (meal_key_match u d t) = some m →
        (upsert_meal_header db u d w t).2 = m.id ∧
        (upsert_meal db u d w t fids).meals = db.meals.map (upd_day_of_week u d w t))) ∧
    (((upsert_meal db u d w t fids).meal_items.filter
        (fun it => it.meal_id = (upsert_meal_header db u d w t).2)).map
          (fun it => (it.food_id, it.sort_order))
        = fids.enum.map (fun e => (e.2, (e.1 : Int))) ∧
      slot_food_ids (upsert_meal db u d w t fids) (upsert_meal_header db u d w t).2 = fids) ∧
    slot_food_ids (upsert_meal (upsert_meal db u d w t fids) u d w t fids)
        (upsert_meal_header db u d w t).2
      = slot_food_ids (upsert_meal db u d w t fids) (upsert_meal_header db u d w t).2 := by
  have hmeals : (upsert_meal db u d w t fids).meals
      = (upsert_meal_header db u d w t).1.meals := rfl
  refine ⟨⟨?_, ?_⟩, ⟨?_, slot_food_ids_upsert db u d w t fids⟩, ?_⟩
  · intro h
    exact ⟨hmeals.trans ((upsert_meal_header_spec db u d w t).1 h).1,
      ((upsert_meal_header_spec db u d w t).1 h).2⟩
  · intro m h
    exact ⟨((upsert_meal_header_spec db u d w t).2 m h).1,
      hmeals.trans ((upsert_meal_header_spec db u d w t).2 m h).2⟩
  · rw [upsert_meal_slot_rows]
    unfold upsert_new_rows
    rw [List.map_map]
    rfl
  · have h2 := slot_food_ids_upsert (upsert_meal db u d w t fids) u d w t fids
    rw [upsert_meal_header_id_stable db u d w t fids w] at h2
    rw [h2, slot_food_ids_upsert db u d w t fids]

/-- Witness for C5: creating a brand-new slot with the empty list on an empty
store, then upserting it again with a different day-of-week, exercising both
the no-conflict and the conflict branch. -/
theorem upsert_meal_spec_witness :
    ((upsert_meal emptyDB "u1" 0 "Friday" "Snack 1" []).meals
        = emptyDB.meals ++ [new_meal_row emptyDB "u1" 0 "Friday" "Snack 1"] ∧
      (upsert_meal_header emptyDB "u1" 0 "Friday" "Snack 1").2 = emptyDB.nextMealId) ∧
    ((upsert_meal_header (upsert_meal emptyDB "u1" 0 "Friday" "Snack 1" [])
        "u1" 0 "Saturday" "Snack 1").2
        = (new_meal_row emptyDB "u1" 0 "Friday" "Snack 1").id ∧
      (upsert_meal (upsert_meal emptyDB "u1" 0 "Friday" "Snack 1" [])
          "u1" 0 "Saturday" "Snack 1" ["A"]).meals
        = (upsert_meal emptyDB "u1" 0 "Friday" "Snack 1" []).meals.map
            (upd_day_of_week "u1" 0 "Saturday" "Snack 1")) :=
  ⟨(upsert_meal_spec emptyDB "u1" 0 "Friday" "Snack 1" []).1.1 (by decide),
   (upsert_meal_spec (upsert_meal emptyDB "u1" 0 "Friday" "Snack 1" [])
      "u1" 0 "Saturday" "Snack 1" ["A"]).1.2
      (new_meal_row emptyDB "u1" 0 "Friday" "Snack 1") (by decide)⟩

theorem add_meal_item_meal_items (db : DB) (u : String) (d : Nat) (w t : String)
    (fid : String) :
    (add_meal_item db u d w t fid).meal_items =
      db.meal_items ++
        [{ id := db.nextItemId
           meal_id := (upsert_meal_header db u d w t).2
           food_id := fid
           sort_order := next_order_of db (upsert_meal_header db u d w t).2 }] := by
  simp only [add_meal_item, upsert_meal_header_meal_items, upsert_meal_header_nextItemId,
    next_order_of_header]

/-- C6: add-item upserts the slot header, computes the next order index as the
current maximum item index plus one (0 for a slot with no items), and appends
exactly one item row without disturbing any existing row; adding a food to a
brand-new slot yields one item with index 0, and adding A then B to an empty
slot yields order [A, B]. -/
theorem add_meal_item_spec (db : DB) (u : String) (d : Nat) (w t : String) (fid : String) :
    ((add_meal_item db u d w t fid).meal_items =
      db.meal_items ++
        [{ id := db.nextItemId
           meal_id := (upsert_meal_header db u d w t).2
           food_id := fid
           sort_order := next_order_of db (upsert_meal_header db u d w t).2 }]) ∧
    (db.meal_items.filter (fun it => it.meal_id = (upsert_meal_header db u d w t).2) = [] →
      next_order_of db (upsert_meal_header db u d w t).2 = 0) ∧
    (∀ it0 ∈ db.meal_items.filter
        (fun it => it.meal_id = (upsert_meal_header db u d w t).2),
      it0.sort_order < next_order_of db (upsert_meal_header db u d w t).2) ∧
    (db.meal_items.filter (fun it => it.meal_id = (upsert_meal_header db u d w t).2) ≠ [] →
      (∀ it0 ∈ db.meal_items.filter
          (fun it => it.meal_id = (upsert_meal_header db u d w t).2),
        (0 : Int) ≤ it0.sort_order) →
      ∃ it0 ∈ db.meal_items.filter
          (fun it => it.meal_id = (upsert_meal_header db u d w t).2),
        next_order_of db (upsert_meal_header db u d w t).2 = it0.sort_order + 1) ∧
    (add_meal_item emptyDB "u1" 0 "Friday" "Snack 1" "F").meal_items
      = [{ id := 0, meal_id := 0, food_id := "F", sort_order := 0 }] ∧
    slot_food_ids
        (add_meal_item (add_meal_item emptyDB "u1" 0 "Friday" "Snack 1" "A")
          "u1" 0 "Friday" "Snack 1" "B") 0
      = ["A", "B"] := by
  have hfoldmap : ∀ (l : List MealItemRow) (a : Int),
      l.foldl (fun acc it => max acc it.sort_order) a
        = (l.map (fun it => it.sort_order)).foldl max a := by
    intro l a
    rw [List.foldl_map]
  refine ⟨add_meal_item_meal_items db u d w t fid, ?_, ?_, ?_, by decide, by decide⟩
  · intro h
    unfold next_order_of
    rw [h]
    rfl
  · intro it0 h0
    unfold next_order_of
    have := mem_le_foldl_max
      ((db.meal_items.filter
        (fun it => it.meal_id = (upsert_meal_header db u d w t).2)).map
          (fun it => it.sort_order)) (-1)
      (List.mem_map_of_mem (fun it => it.sort_order) h0)
    rw [hfoldmap]
    omega
  · intro hne hpos
    unfold next_order_of
    rw [hfoldmap]
    rcases foldl_max_mem ((db.meal_items.filter
        (fun it => it.meal_id = (upsert_meal_header db u d w t).2)).map
          (fun it => it.sort_order)) (-1) with h | h
    · exfalso
      obtain ⟨it0, hit0⟩ := List.exists_mem_of_ne_nil _ hne
      have h1 := hpos it0 hit0
      have h2 := mem_le_foldl_max
        ((db.meal_items.filter
          (fun it => it.meal_id = (upsert_meal_header db u d w t).2)).map
            (fun it => it.sort_order)) (-1)
        (List.mem_map_of_mem (fun it => it.sort_order) hit0)
      rw [h] at h2
      omega
    · obtain ⟨it0, hit0, hval⟩ := List.mem_map.1 h
      exact ⟨it0, hit0, by rw [← hval]⟩

/-- Witness for C6: a slot holding one item at index 3 (a gap left by earlier
removals): the next index is 4 = 3 + 1; and the empty slot of a fresh header
gets index 0. -/
theorem add_meal_item_spec_witness :
    (∃ it0 ∈ (upsert_meal emptyDB "u1" 0 "Friday" "Lunch" ["A"]).meal_items.filter
        (fun it => it.meal_id =
          (upsert_meal_header (upsert_meal emptyDB "u1" 0 "Friday" "Lunch" ["A"])
            "u1" 0 "Friday" "Lunch").2),
      next_order_of (upsert_meal emptyDB "u1" 0 "Friday" "Lunch" ["A"])
          (upsert_meal_header (upsert_meal emptyDB "u1" 0 "Friday" "Lunch" ["A"])
            "u1" 0 "Friday" "Lunch").2
        = it0.sort_order + 1) ∧
    next_order_of emptyDB (upsert_meal_header emptyDB "u1" 0 "Friday" "Lunch").2 = 0 :=
  ⟨(add_meal_item_spec (upsert_meal emptyDB "u1" 0 "Friday" "Lunch" ["A"])
      "u1" 0 "Friday" "Lunch" "B").2.2.2.1 (by decide) (by decide),
   (add_meal_item_spec emptyDB "u1" 0 "Friday" "Lunch" "B").2.1 (by decide)⟩

/-- C7: remove-item deletes exactly the rows matching the (slot, food id) pair
and performs no reordering: the surviving rows are a sublist of the originals
(ids and sort indices untouched, order preserved), every non-matching row
survives, every surviving row is an original non-matching row, the ordered
view of any other slot is unchanged, and index gaps do not break ordering —
after logging [A, B], removing A and then adding C yields order [B, C]. -/
theorem remove_meal_item_spec (db : DB) (mid : Nat) (fid : String) :
    (remove_meal_item db mid fid).meal_items.Sublist db.meal_items ∧
    (∀ it ∈ db.meal_items, ¬(it.meal_id = mid ∧ it.food_id = fid) →
      it ∈ (remove_meal_item db mid fid).meal_items) ∧
    (∀ it ∈ (remove_meal_item db mid fid).meal_items,
      it ∈ db.meal_items ∧ ¬(it.meal_id = mid ∧ it.food_id = fid)) ∧
    (∀ mid2 : Nat, mid2 ≠ mid →
      slot_food_ids (remove_meal_item db mid fid) mid2 = slot_food_ids db mid2) ∧
    slot_food_ids
        (add_meal_item
          (remove_meal_item (upsert_meal emptyDB "u1" 0 "Friday" "Breakfast" ["A", "B"])
            (upsert_meal_header emptyDB "u1" 0 "Friday" "Breakfast").2 "A")
          "u1" 0 "Friday" "Breakfast" "C")
        (upsert_meal_header emptyDB "u1" 0 "Friday" "Breakfast").2
      = ["B", "C"] := by
  refine ⟨List.filter_sublist db.meal_items, ?_, ?_, ?_, by decide⟩
  · intro it hit hne
    refine List.mem_filter.2 ⟨hit, ?_⟩
    by_cases h1 : it.meal_id = mid
    · by_cases h2 : it.food_id = fid
      · exact absurd ⟨h1, h2⟩ hne
      · simp [h1, h2]
    · simp [h1]
  · intro it hit
    have h := List.mem_filter.1 hit
    refine ⟨h.1, ?_⟩
    intro hc
    have := h.2
    simp [hc.1, hc.2] at this
  · intro mid2 hne
    unfold slot_food_ids remove_meal_item
    have hf : (db.meal_items.filter
          (fun it => !(it.meal_id = mid && it.food_id = fid))).filter
            (fun it => it.meal_id = mid2)
        = db.meal_items.filter (fun it => it.meal_id = mid2) := by
      rw [List.filter_filter]
      refine List.filter_congr ?_
      intro x _
      by_cases h2 : x.meal_id = mid2
      · have h3 : x.meal_id ≠ mid := by
          rw [h2]
          exact hne
        simp [h2]
        exact Or.inl hne
      · simp [h2]
    rw [hf]

/-- Witness for C7 on a two-item slot: the non-matching row B survives removal
of A with its index untouched, and the sibling slot's ordered view is
unchanged. -/
theorem remove_meal_item_spec_witness :
    ({ id := 1, meal_id := 0, food_id := "B", sort_order := 1 } : MealItemRow) ∈
      (remove_meal_item (upsert_meal emptyDB "u1" 0 "Friday" "Breakfast" ["A", "B"])
        0 "A").meal_items ∧
    slot_food_ids
        (remove_meal_item (upsert_meal emptyDB "u1" 0 "Friday" "Breakfast" ["A", "B"]) 0 "A") 7
      = slot_food_ids (upsert_meal emptyDB "u1" 0 "Friday" "Breakfast" ["A", "B"]) 7 :=
  ⟨(remove_meal_item_spec (upsert_meal emptyDB "u1" 0 "Friday" "Breakfast" ["A", "B"])
      0 "A").2.1
      ({ id := 1, meal_id := 0, food_id := "B", sort_order := 1 } : MealItemRow)
      (by decide) (by decide),
   (remove_meal_item_spec (upsert_meal emptyDB "u1" 0 "Friday" "Breakfast" ["A", "B"])
      0 "A").2.2.2.1 7 (by decide)⟩

/-- One row of the range query of `get_meals_by_date_range`, joining a meal
header LEFT JOIN its items LEFT JOIN foods. -/
structure JoinedRow where
  meal_id : Nat
  meal_date : Nat
  day_of_week : String
  meal_type : String
  meal_notes : Option String
  meal_item : Option (Nat × Int)
  food : Option FoodRow
deriving DecidableEq

/-- The join rows contributed by one meal header: one row per item (in
`ORDER BY mi.sort_order`), or a single all-NULL item row for a meal with no
items (LEFT JOIN semantics). -/
def meal_rows (db : DB) (m : MealRow) : List JoinedRow :=
  if (List.insertionSort (fun a b => a.sort_order ≤ b.sort_order)
      (db.meal_items.filter (fun it => it.meal_id = m.id))).isEmpty then
    [{ meal_id := m.id, meal_date := m.log_date, day_of_week := m.day_of_week,
       meal_type := m.meal_type, meal_notes := m.notes, meal_item := none, food := none }]
  else
    (List.insertionSort (fun a b => a.sort_order ≤ b.sort_order)
      (db.meal_items.filter (fun it => it.meal_id = m.id))).map (fun it =>
      { meal_id := m.id, meal_date := m.log_date, day_of_week := m.day_of_week,
        meal_type := m.meal_type, meal_notes := m.notes,
        meal_item := some (it.id, it.sort_order),
        food := db.foods.find? (fun f => f.id = it.food_id) })

/-- The `ORDER BY m.log_date, m.meal_type` relation on meal headers. -/
def meal_row_le (a b : MealRow) : Prop :=
  a.log_date < b.log_date ∨ (a.log_date = b.log_date ∧ a.meal_type ≤ b.meal_type)

instance : DecidableRel meal_row_le := fun a b => by
  unfold meal_row_le
  infer_instance

instance : IsTotal MealRow meal_row_le where
  total a b := by
    unfold meal_row_le
    rcases Nat.lt_trichotomy a.log_date b.log_date with h | h | h
    · exact Or.inl (Or.inl h)
    · rcases le_total a.meal_type b.meal_type with h2 | h2
      · exact Or.inl (Or.inr ⟨h, h2⟩)
      · exact Or.inr (Or.inr ⟨h.symm, h2⟩)
    · exact Or.inr (Or.inl h)

instance : IsTrans MealRow meal_row_le where
  trans a b c hab hbc := by
    unfold meal_row_le at hab hbc ⊢
    rcases hab with h1 | ⟨h1, h1t⟩ <;> rcases hbc with h2 | ⟨h2, h2t⟩
    · exact Or.inl (Nat.lt_trans h1 h2)
    · exact Or.inl (h2 ▸ h1)
    · exact Or.inl (h1 ▸ h2)
    · exact Or.inr ⟨h1.trans h2, le_trans h1t h2t⟩

/-- The meal headers of the user in the inclusive range, in query order. -/
def range_meals (db : DB) (user_id : String) (start_date end_date : Nat) : List MealRow :=
  List.insertionSort meal_row_le
    (db.meals.filter (fun m =>
      m.user_id = user_id && start_date ≤ m.log_date && m.log_date ≤ end_date))

/-- Python dict update: replace in place when the key exists, append at the
end otherwise (insertion-ordered mapping). -/
def upsert_assoc (l : List (Nat × DayData)) (k : Nat) (v : DayData) : List (Nat × DayData) :=
  if l.any (fun p => p.1 = k) then l.map (fun p => if p.1 = k then (k, v) else p)
  else l ++ [(k, v)]

/-- Python dict lookup. -/
def lookup_assoc (l : List (Nat × DayData)) (k : Nat) : Option DayData :=
  (l.find? (fun p => p.1 = k)).map (fun p => p.2)

/-- The fresh `DayData` built when a date key is first seen.  Python keys the
dictionary by `str(row['meal_date'])`; `toString` is injective on dates, so
the model keys by the date value itself and stores the string form in the
record. -/
def init_day (row : JoinedRow) : DayData :=
  { id := toString row.meal_date
    date := toString row.meal_date
    dayOfWeek := row.day_of_week
    meals := DayMeals.empty
    dailySummary :=
      { calcium := { covered := false, mealsCovered := [], status := "missing" }
        iron := { covered := false, mealsCovered := [], status := "missing" }
        folicAcid := { covered := false, mealsCovered := [], status := "missing" }
        protein := { covered := false, mealsCovered := [], status := "missing" }
        hasWarnings := false
        missingNutrients := [] } }

/-- The per-row body of the grouping loop: initialise the row's meal slot if
absent, then append the mapped food item when the food id column is truthy
(`if row['id']:`). -/
def apply_row (db : DB) (day : DayData) (row : JoinedRow) : DayData :=
  let key := map_meal_type_to_key row.meal_type
  let meals1 :=
    match day.meals.getSlot key with
    | some _ => day.meals
    | none => day.meals.setSlot key (some
        { id := row.meal_id, type := row.meal_type, items := [],
          containsMicronutrients := MicronutrientPresence.defaults,
          notes := row.meal_notes })
  match row.food with
  | some f =>
    if f.id ≠ "" then
      match meals1.getSlot key with
      | some meal =>
        { day with meals := meals1.setSlot key (some
            { meal with items := meal.items ++ [map_food_item f (food_nutrient_names db f.id)] }) }
      | none => { day with meals := meals1 }
    else { day with meals := meals1 }
  | none => { day with meals := meals1 }

/-- One iteration of the grouping loop of `get_meals_by_date_range`. -/
def group_step (db : DB) (acc : List (Nat × DayData)) (row : JoinedRow) :
    List (Nat × DayData) :=
  let cur := match lookup_assoc acc row.meal_date with
    | some day => day
    | none => init_day row
  upsert_assoc acc row.meal_date (apply_row db cur row)

/-- The second pass over a materialised day: recompute each present slot's
aggregate micronutrients, then the daily summary. -/
def finalize_day (day : DayData) : DayData :=
  let meals1 := slotAttrs.foldl (fun ms attr =>
    match ms.getSlot attr with
    | some meal => ms.setSlot attr (some
        { meal with containsMicronutrients := aggregate_micronutrients meal.items })
    | none => ms) day.meals
  { day with meals := meals1, dailySummary := calculate_daily_summary meals1 }

/-- `MealService.get_meals_by_date_range(user_id, start_date, end_date)`. -/
def get_meals_by_date_range (db : DB) (user_id : String) (start_date end_date : Nat) :
    List DayData :=
  let rows := (range_meals db user_id start_date end_date).flatMap (meal_rows db)
  let day_map := rows.foldl (group_step db) []
  day_map.map (fun p => finalize_day p.2)

/-- The distinct meal dates of the user in the range, ascending. -/
def range_dates (db : DB) (user_id : String) (start_date end_date : Nat) : List Nat :=
  (List.insertionSort (fun a b => a ≤ b)
    ((db.meals.filter (fun m =>
      m.user_id = user_id && start_date ≤ m.log_date && m.log_date ≤ end_date)).map
        (fun m => m.log_date))).dedup

theorem keys_upsert_assoc (acc : List (Nat × DayData)) (k : Nat) (v : DayData) :
    (upsert_assoc acc k v).map Prod.fst
      = if acc.any (fun p => p.1 = k) then acc.map Prod.fst
        else acc.map Prod.fst ++ [k] := by
  unfold upsert_assoc
  by_cases h : acc.any (fun p => p.1 = k)
  · rw [if_pos h, if_pos h, List.map_map]
    refine List.map_congr_left ?_
    intro p _
    by_cases hk : p.1 = k
    · simp [hk]
    · simp [hk]
  · rw [if_neg h, if_neg h]
    simp

theorem apply_row_date (db : DB) (day : DayData) (row : JoinedRow) :
    (apply_row db day row).date = day.date := by
  unfold apply_row
  cases row.food with
  | none => rfl
  | some f =>
    by_cases h : f.id ≠ ""
    · simp only [if_pos h]
      split <;> rfl
    · simp only [if_neg h]

theorem finalize_day_date (day : DayData) : (finalize_day day).date = day.date := rfl

theorem lookup_assoc_mem (l : List (Nat × DayData)) (k : Nat) (day : DayData)
    (h : lookup_assoc l k = some day) : (k, day) ∈ l := by
  unfold lookup_assoc at h
  cases hf : l.find? (fun p => p.1 = k) with
  | none => rw [hf] at h; cases h
  | some p =>
    rw [hf] at h
    have hp : p ∈ l := List.mem_of_find?_eq_some hf
    have hk : p.1 = k := by simpa using List.find?_some hf
    have hd : p.2 = day := by simpa using h
    rw [← hk, ← hd]
    exact hp

theorem mem_upsert_assoc {acc : List (Nat × DayData)} {k : Nat} {v : DayData}
    {p : Nat × DayData} (hp : p ∈ upsert_assoc acc k v) : p ∈ acc ∨ p = (k, v) := by
  unfold upsert_assoc at hp
  split at hp
  · obtain ⟨q, hq, hqe⟩ := List.mem_map.1 hp
    by_cases hk : q.1 = k
    · rw [if_pos hk] at hqe
      right
      exact hqe.symm
    · rw [if_neg hk] at hqe
      left
      rw [← hqe]
      exact hq
  · rcases List.mem_append.1 hp with h | h
    · left; exact h
    · right; simpa using h

theorem group_step_eq (db : DB) (acc : List (Nat × DayData)) (r : JoinedRow) :
    group_step db acc r = upsert_assoc acc r.meal_date
      (apply_row db (match lookup_assoc acc r.meal_date with
        | some day => day
        | none => init_day r) r) := rfl

/-- Every entry of the grouping map stores the string form of its key as its
`date` (and `id`). -/
theorem fold_group_step_dates (db : DB) (rows : List JoinedRow) :
    ∀ (acc : List (Nat × DayData)),
      (∀ p ∈ acc, (p : Nat × DayData).2.date = toString p.1) →
      ∀ p ∈ rows.foldl (group_step db) acc, (p : Nat × DayData).2.date = toString p.1 := by
  induction rows with
  | nil => intro acc hacc; exact hacc
  | cons r rows ih =>
    intro acc hacc
    rw [List.foldl_cons]
    refine ih _ ?_
    intro p hp
    rw [group_step_eq] at hp
    rcases mem_upsert_assoc hp with h | h
    · exact hacc p h
    · rw [h]
      simp only
      rw [apply_row_date]
      cases hl : lookup_assoc acc r.meal_date with
      | some day =>
        simpa using hacc _ (lookup_assoc_mem acc r.meal_date day hl)
      | none => rfl

theorem keys_group_step (db : DB) (acc : List (Nat × DayData)) (r : JoinedRow) :
    (group_step db acc r).map Prod.fst
      = if acc.any (fun p => p.1 = r.meal_date) then acc.map Prod.fst
        else acc.map Prod.fst ++ [r.meal_date] := by
  rw [group_step_eq, keys_upsert_assoc]

theorem mem_keys_fold (db : DB) (rows : List JoinedRow) :
    ∀ (acc : List (Nat × DayData)) (k : Nat),
      k ∈ (rows.foldl (group_step db) acc).map Prod.fst ↔
        k ∈ acc.map Prod.fst ∨ k ∈ rows.map (fun r => r.meal_date) := by
  induction rows with
  | nil => intro acc k; simp
  | cons r rows ih =>
    intro acc k
    rw [List.foldl_cons, ih]
    have hk : k ∈ (group_step db acc r).map Prod.fst ↔
        k ∈ acc.map Prod.fst ∨ k = r.meal_date := by
      rw [keys_group_step]
      by_cases h : acc.any (fun p => p.1 = r.meal_date)
      · rw [if_pos h]
        constructor
        · exact Or.inl
        · rintro (h2 | rfl)
          · exact h2
          · obtain ⟨p, hp, hpe⟩ := List.any_eq_true.1 h
            exact List.mem_map.2 ⟨p, hp, by simpa using hpe⟩
      · rw [if_neg h]
        simp
    rw [hk]
    simp only [List.map_cons, List.mem_cons]
    tauto

theorem keys_fold_sorted (db : DB) (rows : List JoinedRow) :
    ∀ (acc : List (Nat × DayData)),
      (rows.map (fun r => r.meal_date)).Pairwise (fun a b => a ≤ b) →
      ((acc.map Prod.fst).Pairwise (fun a b => a < b)) →
      (∀ k ∈ acc.map Prod.fst, ∀ r ∈ rows, k ≤ r.meal_date) →
      ((rows.foldl (group_step db) acc).map Prod.fst).Pairwise (fun a b => a < b) := by
  induction rows with
  | nil => intro acc _ hs _; exact hs
  | cons r rows ih =>
    intro acc hrows hs hbound
    rw [List.map_cons, List.pairwise_cons] at hrows
    obtain ⟨hhead, hrows'⟩ := hrows
    rw [List.foldl_cons]
    refine ih _ hrows' ?_ ?_
    · rw [keys_group_step]
      by_cases h : acc.any (fun p => p.1 = r.meal_date)
      · rw [if_pos h]; exact hs
      · rw [if_neg h]
        rw [List.pairwise_append]
        refine ⟨hs, List.pairwise_singleton _ _, ?_⟩
        intro k hk k2 hk2
        have hk2e : k2 = r.meal_date := by simpa using hk2
        subst hk2e
        have hle := hbound k hk r (List.mem_cons_self r rows)
        have hne : k ≠ r.meal_date := by
          intro he
          apply h
          obtain ⟨p, hp, hpe⟩ := List.mem_map.1 hk
          exact List.any_eq_true.2 ⟨p, hp, by simp [hpe, he]⟩
        omega
    · intro k hk r2 hr2
      rw [keys_group_step] at hk
      by_cases h : acc.any (fun p => p.1 = r.meal_date)
      · rw [if_pos h] at hk
        exact hbound k hk r2 (List.mem_cons_of_mem r hr2)
      · rw [if_neg h] at hk
        rcases List.mem_append.1 hk with hk2 | hk2
        · exact hbound k hk2 r2 (List.mem_cons_of_mem r hr2)
        · have hke : k = r.meal_date := by simpa using hk2
          subst hke
          exact hhead r2.meal_date (List.mem_map_of_mem _ hr2)

theorem meal_rows_ne_nil (db : DB) (m : MealRow) : meal_rows db m ≠ [] := by
  unfold meal_rows
  by_cases h : (List.insertionSort (fun a b => a.sort_order ≤ b.sort_order)
      (db.meal_items.filter (fun it => it.meal_id = m.id))).isEmpty
  · rw [if_pos h]
    simp
  · rw [if_neg h]
    simp only [ne_eq, List.map_eq_nil_iff]
    intro hc
    rw [hc] at h
    simp at h

theorem meal_rows_date (db : DB) (m : MealRow) :
    ∀ r ∈ meal_rows db m, r.meal_date = m.log_date := by
  intro r hr
  unfold meal_rows at hr
  split at hr
  · have : r = _ := List.mem_singleton.1 hr
    rw [this]
  · obtain ⟨it, _, hre⟩ := List.mem_map.1 hr
    rw [← hre]

theorem range_meals_sorted (db : DB) (u : String) (s e : Nat) :
    (range_meals db u s e).Pairwise meal_row_le :=
  List.sorted_insertionSort meal_row_le _

theorem range_rows_dates_pairwise (db : DB) (u : String) (s e : Nat) :
    (((range_meals db u s e).flatMap (meal_rows db)).map
      (fun r => r.meal_date)).Pairwise (fun a b => a ≤ b) := by
  refine List.pairwise_map.2 ?_
  refine List.pairwise_flatMap.2 ⟨?_, ?_⟩
  · intro m _
    refine List.pairwise_of_forall_mem_list ?_
    intro x hx y hy
    rw [meal_rows_date db m x hx, meal_rows_date db m y hy]
  · refine (range_meals_sorted db u s e).imp ?_
    intro m1 m2 h x hx y hy
    rw [meal_rows_date db m1 x hx, meal_rows_date db m2 y hy]
    rcases h with h | ⟨h, _⟩
    · exact Nat.le_of_lt h
    · exact Nat.le_of_eq h

theorem range_rows_dates_mem (db : DB) (u : String) (s e : Nat) (d : Nat) :
    d ∈ (((range_meals db u s e).flatMap (meal_rows db)).map (fun r => r.meal_date)) ↔
      ∃ m ∈ db.meals.filter (fun m =>
        m.user_id = u && s ≤ m.log_date && m.log_date ≤ e), m.log_date = d := by
  constructor
  · intro h
    obtain ⟨r, hr, hrd⟩ := List.mem_map.1 h
    obtain ⟨m, hm, hrm⟩ := List.mem_flatMap.1 hr
    refine ⟨m, ?_, ?_⟩
    · simpa [range_meals] using hm
    · rw [← hrd, meal_rows_date db m r hrm]
  · rintro ⟨m, hm, rfl⟩
    have hm2 : m ∈ range_meals db u s e := by
      simpa [range_meals] using hm
    obtain ⟨r, hr⟩ := List.exists_mem_of_ne_nil _ (meal_rows_ne_nil db m)
    refine List.mem_map.2 ⟨r, List.mem_flatMap.2 ⟨m, hm2, hr⟩, meal_rows_date db m r hr⟩

theorem range_dates_pairwise (db : DB) (u : String) (s e : Nat) :
    (range_dates db u s e).Pairwise (fun a b => a < b) := by
  unfold range_dates
  have hsorted : (List.insertionSort (fun a b => a ≤ b)
      ((db.meals.filter (fun m =>
        m.user_id = u && s ≤ m.log_date && m.log_date ≤ e)).map
          (fun m => m.log_date))).Pairwise (fun a b : Nat => a ≤ b) :=
    List.sorted_insertionSort _ _
  have hs2 := List.Pairwise.sublist (List.dedup_sublist _) hsorted
  have hnd : (List.insertionSort (fun a b => a ≤ b)
      ((db.meals.filter (fun m =>
        m.user_id = u && s ≤ m.log_date && m.log_date ≤ e)).map
          (fun m => m.log_date))).dedup.Nodup := List.nodup_dedup _
  refine (hs2.and hnd).imp ?_
  intro a b h
  exact Nat.lt_of_le_of_ne h.1 h.2

theorem range_dates_mem (db : DB) (u : String) (s e : Nat) (d : Nat) :
    d ∈ range_dates db u s e ↔
      ∃ m ∈ db.meals.filter (fun m =>
        m.user_id = u && s ≤ m.log_date && m.log_date ≤ e), m.log_date = d := by
  unfold range_dates
  rw [List.mem_dedup, List.mem_insertionSort]
  simp

theorem keys_fold_eq_range_dates (db : DB) (u : String) (s e : Nat) :
    ((((range_meals db u s e).flatMap (meal_rows db)).foldl (group_step db) []).map
      Prod.fst) = range_dates db u s e := by
  have hsortedK := keys_fold_sorted db ((range_meals db u s e).flatMap (meal_rows db)) []
    (range_rows_dates_pairwise db u s e) (by simp) (by simp)
  have hsortedR := range_dates_pairwise db u s e
  have hndK : ((((range_meals db u s e).flatMap (meal_rows db)).foldl (group_step db) []).map
      Prod.fst).Nodup := hsortedK.imp (fun h => Nat.ne_of_lt h)
  have hndR : (range_dates db u s e).Nodup := hsortedR.imp (fun h => Nat.ne_of_lt h)
  have hmem : ∀ k : Nat,
      (k ∈ (((range_meals db u s e).flatMap (meal_rows db)).foldl (group_step db) []).map
        Prod.fst ↔ k ∈ range_dates db u s e) := by
    intro k
    rw [mem_keys_fold db _ [] k, range_dates_mem db u s e k,
      ← range_rows_dates_mem db u s e k]
    simp
  haveI : IsAntisymm Nat (fun a b : Nat => a ≤ b) :=
    ⟨fun a b h1 h2 => Nat.le_antisymm h1 h2⟩
  have hK : ((((range_meals db u s e).flatMap (meal_rows db)).foldl (group_step db) []).map
      Prod.fst).Pairwise (fun a b : Nat => a ≤ b) :=
    hsortedK.imp (fun h => Nat.le_of_lt h)
  have hR : (range_dates db u s e).Pairwise (fun a b : Nat => a ≤ b) :=
    hsortedR.imp (fun h => Nat.le_of_lt h)
  exact List.eq_of_perm_of_sorted ((List.perm_ext_iff_of_nodup hndK hndR).2 hmem) hK hR

/-- C3: the day reconstructor returns zero records when the range contains no
meal rows (it never synthesizes empty days), and otherwise exactly one record
per distinct date having at least one meal row, sorted by ascending date: the
returned date strings are exactly the distinct sorted meal dates of the user's
rows in the inclusive range. -/
theorem get_meals_by_date_range_spec (db : DB) (u : String) (s e : Nat) :
    (db.meals.filter (fun m => m.user_id = u && s ≤ m.log_date && m.log_date ≤ e) = [] →
      get_meals_by_date_range db u s e = []) ∧
    (get_meals_by_date_range db u s e).map (fun day => day.date)
      = (range_dates db u s e).map toString ∧
    (range_dates db u s e).Pairwise (fun a b => a < b) ∧
    (∀ d : Nat, d ∈ range_dates db u s e ↔
      ∃ m ∈ db.meals, m.user_id = u ∧ s ≤ m.log_date ∧ m.log_date ≤ e ∧ m.log_date = d) := by
  refine ⟨?_, ?_, range_dates_pairwise db u s e, ?_⟩
  · intro h
    unfold get_meals_by_date_range range_meals
    rw [h]
    rfl
  · have hdates := fold_group_step_dates db ((range_meals db u s e).flatMap (meal_rows db))
      [] (by simp)
    unfold get_meals_by_date_range
    rw [List.map_map]
    rw [List.map_congr_left (g := fun p : Nat × DayData => toString p.1) (fun p hp => by
      show (finalize_day p.2).date = toString p.1
      rw [finalize_day_date]
      exact hdates p hp)]
    rw [show (fun p : Nat × DayData => toString p.1)
        = (toString ∘ (Prod.fst : Nat × DayData → Nat)) from rfl]
    rw [← List.map_map, keys_fold_eq_range_dates db u s e]
  · intro d
    rw [range_dates_mem db u s e d]
    simp [List.mem_filter, and_assoc]

/-- Witness for C3 at the empty store: a range with no meal rows yields zero
records. -/
theorem get_meals_by_date_range_spec_witness :
    get_meals_by_date_range emptyDB "u1" 0 5 = [] :=
  (get_meals_by_date_range_spec emptyDB "u1" 0 5).1 (by decide)
